import Mathlib

/-!
Shallow embedding of the rfarbfeld decoder (themadprofessor/rfarbfeld).

The repository contains two decode pipelines for the farbfeld raster format:
  * `src/farbfeld.rs`: a byte-reader pipeline (`Farbfeld::load`, `check_count`,
    `check_magic`, `get_dimensions`, `load_pixels`) with string-based errors and
    coordinate accessors (`get`, `get_pos`, `get_pos_mut`, `Index`), plus a
    channel iterator (`PixelIter`, `into_raw`).
  * `src/new_farb/`: a nom-based parser (`parse_farb`, `parse_pixel`,
    `i_to_res`) feeding the validating constructor `Farbfeld::new`.

Bytes are modelled as `Nat` (a well-formed byte is `< 256`); u16/u32 values are
`Nat` with explicit `% 2^32` where the Rust u32 arithmetic can wrap.  A `Read`
source is modelled as the list of bytes it will deliver: each `read` into an
8-byte buffer returns `min 8 remaining` bytes, which is the behaviour of the
slice/`BufReader` sources the crate actually uses.
-/

namespace Rfarbfeld

/-- One pixel: four 16-bit channels red, green, blue, alpha (u16 in the
source, here `Nat`); the same struct appears identically in
`src/farbfeld.rs`, `src/farbfeld/pixel.rs` and `src/new_farb/pixel.rs`. -/
structure Pixel where
  red : Nat
  green : Nat
  blue : Nat
  alpha : Nat
deriving DecidableEq, Repr

/-- The image container of `src/farbfeld.rs` and `src/new_farb/mod.rs`:
a pixel vector plus u32 width and height. -/
structure Farbfeld where
  pixels : List Pixel
  width : Nat
  height : Nat
deriving DecidableEq, Repr

/-- Errors of the `src/farbfeld.rs` pipeline.  In the source every error is a
`FarbfeldErr { desc: String, super_err }`; each construction site uses a
distinct format string, so errors are distinguishable by their text.  Each
site is one constructor here, carrying the numeric data interpolated into its
format string.  The `super_err: Some(io_err)` sites are unreachable for an
in-memory byte source and are not modelled.

  * `readMagicFailed n`  — "Failed to read magic number data! …Read n bytes."
  * `invalidMagic`       — "Invalid farbeld file! Incorrect magic number!"
  * `readDimenFailed n`  — "Failed to read dimension data! …Read n bytes."
  * `truncatedPixel n`   — "Failed to read enough data for pixels! Read n bytes." -/
inductive FfErr where
  | readMagicFailed (count : Nat)
  | invalidMagic
  | readDimenFailed (count : Nat)
  | truncatedPixel (count : Nat)
deriving DecidableEq, Repr

/-- Big-endian 16-bit value from two bytes (byteorder `read_u16::<BigEndian>`). -/
def be16 (hi lo : Nat) : Nat := 256 * hi + lo

/-- Big-endian 32-bit value from four bytes (byteorder `read_u32::<BigEndian>`). -/
def be32 (b0 b1 b2 b3 : Nat) : Nat :=
  16777216 * b0 + 65536 * b1 + 256 * b2 + b3

/-- `Pixel::new(buff)` of `src/farbfeld.rs` (lines 33-58): the four channels
are the four big-endian u16 fields of the 8-byte buffer.  The `Err` branch
fires only when a 2-byte cursor read fails, which cannot happen on the
8-byte buffer every call site supplies, so it is not modelled. -/
def pixelNew (buff : List Nat) : Pixel :=
  { red := be16 (buff.getD 0 0) (buff.getD 1 0)
    green := be16 (buff.getD 2 0) (buff.getD 3 0)
    blue := be16 (buff.getD 4 0) (buff.getD 5 0)
    alpha := be16 (buff.getD 6 0) (buff.getD 7 0) }

/-- `check_magic` of `src/farbfeld.rs` (lines 263-270): the buffer must be
exactly the ASCII bytes of "farbfeld". -/
def magicBytes : List Nat := [0x66, 0x61, 0x72, 0x62, 0x66, 0x65, 0x6c, 0x64]

/-- `check_magic` returns no error exactly when the buffer equals the magic. -/
def checkMagic (buff : List Nat) : Bool := buff = magicBytes

/-- `get_dimensions` of `src/farbfeld.rs` (lines 272-283): bytes [0,4) are the
big-endian u32 width, bytes [4,8) the big-endian u32 height.  The `Err`
branch fires only when a 4-byte cursor read fails, impossible on the 8-byte
buffer supplied by `load`, so it is not modelled. -/
def getDimensions (buff : List Nat) : Nat × Nat :=
  (be32 (buff.getD 0 0) (buff.getD 1 0) (buff.getD 2 0) (buff.getD 3 0),
   be32 (buff.getD 4 0) (buff.getD 5 0) (buff.getD 6 0) (buff.getD 7 0))

/-- `load_pixels` of `src/farbfeld.rs` (lines 229-261): repeatedly read up to
8 bytes (a read returns `min 8 remaining` bytes here).  Reading 0 bytes at a
record boundary ends the loop normally; reading 1-7 bytes (the whole rest of
a short stream) is the truncation error carrying that byte count; a full
8-byte read parses one pixel and continues. -/
def loadPixels : List Nat → Except FfErr (List Pixel)
  | [] => .ok []
  | b0 :: b1 :: b2 :: b3 :: b4 :: b5 :: b6 :: b7 :: rest =>
    match loadPixels rest with
    | .error e => .error e
    | .ok ps => .ok (pixelNew [b0, b1, b2, b3, b4, b5, b6, b7] :: ps)
  | src => .error (.truncatedPixel src.length)

/-- `Farbfeld::load` of `src/farbfeld.rs` (lines 78-106): read 8 bytes and
check the count then the magic; read 8 more bytes and check the count then
parse dimensions; then decode the remaining stream as pixel records.  A
`read` into the 8-byte buffer returns `min 8 remaining` bytes. -/
def load (src : List Nat) : Except FfErr Farbfeld :=
  let count1 := min 8 src.length
  if count1 < 8 then .error (.readMagicFailed count1)
  else if checkMagic (src.take 8) then
    let rest := src.drop 8
    let count2 := min 8 rest.length
    if count2 < 8 then .error (.readDimenFailed count2)
    else
      let dims := getDimensions (rest.take 8)
      match loadPixels (rest.drop 8) with
      | .error e => .error e
      | .ok ps => .ok { pixels := ps, width := dims.1, height := dims.2 }
  else .error .invalidMagic

/-- `Farbfeld::get` (lines 108-110): bounds-checked linear lookup via
`Vec::get`. -/
def Farbfeld.get (f : Farbfeld) (index : Nat) : Option Pixel :=
  f.pixels.get? index

/-- `Farbfeld::get_pos` (lines 112-114): linear index
`(self.width * pos[0] + pos[1]) as usize`, u32 arithmetic, then `get`. -/
def Farbfeld.getPos (f : Farbfeld) (pos : Nat × Nat) : Option Pixel :=
  f.get ((f.width * pos.1 % 4294967296 + pos.2) % 4294967296)

/-- `Farbfeld::get_mut` (lines 116-118), modelled as the pixel the returned
mutable reference denotes. -/
def Farbfeld.getMut (f : Farbfeld) (index : Nat) : Option Pixel :=
  f.pixels.get? index

/-- `Farbfeld::get_pos_mut` (lines 120-122): linear index
`(self.width * pos[0] + pos[0]) as usize` — note `pos[0]` twice. -/
def Farbfeld.getPosMut (f : Farbfeld) (pos : Nat × Nat) : Option Pixel :=
  f.pixels.get? ((f.width * pos.1 % 4294967296 + pos.1) % 4294967296)

/-- `impl Index<[u32; 2]> for Farbfeld` (lines 177-183): linear index
`(index[0] * self.width + index[1]) as usize`; the `Vec` indexing panic on
out-of-range is modelled as `none`. -/
def Farbfeld.indexPair (f : Farbfeld) (pos : Nat × Nat) : Option Pixel :=
  f.pixels.get? ((pos.1 * f.width % 4294967296 + pos.2) % 4294967296)

/-! The `src/new_farb/` pipeline: nom 2/3-era parser combinators.  A nom
`IResult` is `Done(rest, value)`, `Error(_)` or `Incomplete(needed)`; the
`Needed` payload and nom's error codes are not observed by any claim and are
not modelled. -/

/-- A nom `IResult` over a byte-list input. -/
inductive NomRes (α : Type) where
  | done (rest : List Nat) (val : α)
  | fail
  | incomplete
deriving DecidableEq, Repr

/-- Sequencing of nom results, as done by `do_parse!`: `Error` and
`Incomplete` short-circuit. -/
def nbind {α β : Type} (r : NomRes α) (f : List Nat → α → NomRes β) : NomRes β :=
  match r with
  | .fail => .fail
  | .incomplete => .incomplete
  | .done rest v => f rest v

/-- Error kinds of `src/new_farb/error.rs`.  That file is not in the sources
given; the enumeration is reconstructed from its uses in
`src/new_farb/mod.rs`, `src/new_farb/parser.rs` and `src/main.rs`:
`IoError(err)`, `InvalidFarbfeldDimensions`, `NotEnoughDataError(need)`,
`NomError(err)` (payloads not observed by any claim, hence not modelled). -/
inductive ErrorKind where
  | ioError
  | invalidFarbfeldDimensions
  | notEnoughData
  | nomError
deriving DecidableEq, Repr

/-- `Farbfeld::new` of `src/new_farb/mod.rs` (lines 22-33): errors when the
u32 product `width * height` (wrapping, hence `% 2^32`) exceeds the number of
pixels supplied; otherwise constructs the container. -/
def Farbfeld.new (width height : Nat) (pixels : List Pixel) :
    Except ErrorKind Farbfeld :=
  if width * height % 4294967296 > pixels.length then
    .error .invalidFarbfeldDimensions
  else
    .ok { pixels := pixels, width := width, height := height }

/-- Whitespace as eaten by nom's `ws!`/`sp`: the bytes of `" \t\r\n"`. -/
def isNomSpace (b : Nat) : Bool :=
  b = 0x20 || b = 0x09 || b = 0x0D || b = 0x0A

/-- The `sp` separator used by `ws!`: drop any run of whitespace bytes. -/
def spDrop (i : List Nat) : List Nat := i.dropWhile isNomSpace

/-- nom `be_u16`: `Incomplete` on fewer than 2 bytes, else the big-endian
value and the rest. -/
def nomBeU16 (i : List Nat) : NomRes Nat :=
  if i.length < 2 then .incomplete
  else .done (i.drop 2) (be16 (i.getD 0 0) (i.getD 1 0))

/-- nom `be_u32`: `Incomplete` on fewer than 4 bytes, else the big-endian
value and the rest. -/
def nomBeU32 (i : List Nat) : NomRes Nat :=
  if i.length < 4 then .incomplete
  else .done (i.drop 4) (be32 (i.getD 0 0) (i.getD 1 0) (i.getD 2 0) (i.getD 3 0))

/-- nom `tag!("farbfeld")`: compare the first `min len 8` bytes with the
magic; a mismatch there is `Error`, a matching proper prefix is `Incomplete`,
a full match consumes 8 bytes. -/
def tagFarbfeld (i : List Nat) : NomRes Unit :=
  let m := min i.length 8
  if i.take m = magicBytes.take m then
    if i.length < 8 then .incomplete else .done (i.drop 8) ()
  else .fail

/-- `parse_pixel` of `src/new_farb/parser.rs` (lines 7-13):
`ws!(do_parse!(red: be_u16 >> green: be_u16 >> blue: be_u16 >>
alpha: be_u16 >> (Pixel::new(..))))`.  nom's `ws!` distributes the `sp`
separator before every field and eats trailing whitespace after the last,
so whitespace bytes are silently skipped around each 2-byte read. -/
def parsePixel (i : List Nat) : NomRes Pixel :=
  nbind (nomBeU16 (spDrop i)) fun i1 red =>
  nbind (nomBeU16 (spDrop i1)) fun i2 green =>
  nbind (nomBeU16 (spDrop i2)) fun i3 blue =>
  nbind (nomBeU16 (spDrop i3)) fun i4 alpha =>
  .done (spDrop i4) (Pixel.mk red green blue alpha)

/-- nom `many0!(parse_pixel)`: loop the inner parser.  Empty remaining input
or an inner `Error` ends the loop with the pixels collected so far; inner
`Incomplete` propagates; an iteration that consumes nothing is nom's
infinite-loop guard and yields `Error` (unreachable here, since a completed
`parse_pixel` consumes at least 8 bytes).  The loop is embedded with a fuel
argument; `many0Pixels` supplies `length + 1`, which the guard makes
sufficient. -/
def many0PixelsAux : Nat → List Nat → NomRes (List Pixel)
  | 0, _ => .fail
  | fuel + 1, i =>
    if i.length = 0 then .done i []
    else
      match parsePixel i with
      | .fail => .done i []
      | .incomplete => .incomplete
      | .done rest v =>
        if rest.length = i.length then .fail
        else
          match many0PixelsAux fuel rest with
          | .done rest2 vs => .done rest2 (v :: vs)
          | .fail => .fail
          | .incomplete => .incomplete

/-- `many0!(parse_pixel)` at adequate fuel. -/
def many0Pixels (i : List Nat) : NomRes (List Pixel) :=
  many0PixelsAux (i.length + 1) i

/-- `parse_farb` of `src/new_farb/parser.rs` (lines 15-22): magic tag, two
big-endian u32 dimensions, `many0` pixels, then `expr_res!` runs
`Farbfeld::new` and turns its `Err` into a nom `Error`. -/
def parseFarb (i : List Nat) : NomRes Farbfeld :=
  nbind (tagFarbfeld i) fun i1 _ =>
  nbind (nomBeU32 i1) fun i2 width =>
  nbind (nomBeU32 i2) fun i3 height =>
  nbind (many0Pixels i3) fun i4 pixels =>
  match Farbfeld.new width height pixels with
  | .error _ => .fail
  | .ok f => .done i4 f

/-- `i_to_res` of `src/new_farb/parser.rs` (lines 24-30): `Incomplete` maps
to `NotEnoughDataError`, `Done` to `Ok`, `Error` to `NomError`. -/
def iToRes {α : Type} (r : NomRes α) : Except ErrorKind α :=
  match r with
  | .incomplete => .error .notEnoughData
  | .done _ v => .ok v
  | .fail => .error .nomError

/-- `Farbfeld::from_read` of `src/new_farb/mod.rs` (lines 54-58) on an
in-memory source: read every byte, then `i_to_res(parse_farb(&buff))`. -/
def fromRead (src : List Nat) : Except ErrorKind Farbfeld :=
  iToRes (parseFarb src)

/-! The channel iterator of `src/farbfeld.rs` (lines 139-160) and
`src/farbfeld/pixel.rs` (lines 73-102). -/

/-- `PixelIter`: a pixel plus the u8 cursor `curr`. -/
structure PixelIter where
  pixel : Pixel
  curr : Nat
deriving DecidableEq, Repr

/-- `impl IntoIterator for Pixel`: start the iterator at `curr = 0`. -/
def Pixel.intoIter (p : Pixel) : PixelIter := { pixel := p, curr := 0 }

/-- `Iterator::next` for `PixelIter`: `curr` 0-3 yield red, green, blue,
alpha and advance `curr += 1`; anything else yields `None` and leaves the
state unchanged. -/
def PixelIter.next (it : PixelIter) : Option (Nat × PixelIter) :=
  match it.curr with
  | 0 => some (it.pixel.red, { pixel := it.pixel, curr := 1 })
  | 1 => some (it.pixel.green, { pixel := it.pixel, curr := 2 })
  | 2 => some (it.pixel.blue, { pixel := it.pixel, curr := 3 })
  | 3 => some (it.pixel.alpha, { pixel := it.pixel, curr := 4 })
  | _ => none

/-- A successful `next` advances the cursor by one and can only happen below
cursor 4. -/
theorem PixelIter.next_curr (it it2 : PixelIter) (v : Nat)
    (h : it.next = some (v, it2)) : it2.curr = it.curr + 1 ∧ it.curr < 4 := by
  obtain ⟨p, c⟩ := it
  simp only [PixelIter.next] at h
  split at h <;>
      simp only [Option.some.injEq, Prod.mk.injEq, reduceCtorEq] at h <;>
      obtain ⟨h1, h2⟩ := h <;> subst h2 <;> simp_all

/-- Running a `PixelIter` to exhaustion, the way `flat_map`/`collect`
consume it: repeat `next` until it yields `None`. -/
def PixelIter.toList (it : PixelIter) : List Nat :=
  match h : it.next with
  | none => []
  | some (v, it2) => v :: it2.toList
termination_by 4 - it.curr
decreasing_by
  obtain ⟨h1, h2⟩ := PixelIter.next_curr _ _ _ h
  omega

/-- `Farbfeld::into_raw` of `src/farbfeld.rs` (lines 132-137): flat-map every
pixel through its channel iterator. -/
def Farbfeld.intoRaw (f : Farbfeld) : List Nat :=
  (f.pixels.map fun p => p.intoIter.toList).flatten

/-! Wire encodings, from the spec (§6): the repository has no serializer, so
these definitions follow the spec's wire-format table; the theorems compare
the decoders against them. -/

/-- Spec wire format: an unsigned 16-bit value as two big-endian bytes. -/
def wireU16 (v : Nat) : List Nat := [v / 256 % 256, v % 256]

/-- Spec wire format: an unsigned 32-bit value as four big-endian bytes. -/
def wireU32 (v : Nat) : List Nat :=
  [v / 16777216 % 256, v / 65536 % 256, v / 256 % 256, v % 256]

/-- Spec wire format: a pixel record is red, green, blue, alpha, each as a
big-endian 16-bit value. -/
def wirePixel (p : Pixel) : List Nat :=
  wireU16 p.red ++ wireU16 p.green ++ wireU16 p.blue ++ wireU16 p.alpha

/-- Spec wire format: magic, width, height, then the flat pixel records. -/
def wireImage (w h : Nat) (ps : List Pixel) : List Nat :=
  magicBytes ++ wireU32 w ++ wireU32 h ++ (ps.map wirePixel).flatten

/-- A well-formed pixel: all four channels fit in 16 bits (automatic for the
u16 fields of the Rust struct). -/
def Pixel.wf (p : Pixel) : Prop :=
  p.red < 65536 ∧ p.green < 65536 ∧ p.blue < 65536 ∧ p.alpha < 65536

/-- Decoding the wire encoding of a 32-bit value recovers the value. -/
theorem be32_wire (v : Nat) (hv : v < 4294967296) :
    be32 (v / 16777216 % 256) (v / 65536 % 256) (v / 256 % 256) (v % 256) = v := by
  unfold be32
  omega

/-- `get_dimensions` recovers width and height from their wire encoding. -/
theorem getDimensions_wire (w h : Nat) (hw : w < 4294967296)
    (hh : h < 4294967296) : getDimensions (wireU32 w ++ wireU32 h) = (w, h) := by
  simp only [getDimensions, wireU32, List.cons_append, List.nil_append]
  simp only [List.getD, List.getElem?_cons_zero, List.getElem?_cons_succ,
    Option.getD_some]
  refine Prod.ext ?_ ?_ <;> simp [be32] <;> omega

/-- `load_pixels` decodes a flat sequence of encoded records to exactly those
records, in order. -/
theorem loadPixels_wire (ps : List Pixel) (hwf : ∀ p ∈ ps, p.wf) :
    loadPixels ((ps.map wirePixel).flatten) = .ok ps := by
  induction ps with
  | nil => rfl
  | cons p rest ih =>
    obtain ⟨r, g, b, a⟩ := p
    obtain ⟨h1, h2, h3, h4⟩ := hwf _ (List.mem_cons_self _ _)
    dsimp only at h1 h2 h3 h4
    have ihh := ih fun q hq => hwf q (List.mem_cons_of_mem _ hq)
    simp only [List.map_cons, List.flatten_cons, wirePixel, wireU16,
      List.cons_append, List.append_eq, List.nil_append, loadPixels, ihh]
    simp only [pixelNew, be16, List.getD_cons_zero, List.getD_cons_succ]
    simp only [Except.ok.injEq, List.cons.injEq, Pixel.mk.injEq]
    exact ⟨⟨by omega, by omega, by omega, by omega⟩, trivial⟩

/-- `Farbfeld::load` decodes a well-formed wire image to exactly its
dimensions and records. -/
theorem load_wire (w h : Nat) (ps : List Pixel) (hw : w < 4294967296)
    (hh : h < 4294967296) (hwf : ∀ p ∈ ps, p.wf) :
    load (wireImage w h ps) = .ok { pixels := ps, width := w, height := h } := by
  have hmagic : magicBytes.length = 8 := rfl
  have hdims : (wireU32 w ++ wireU32 h).length = 8 := by simp [wireU32]
  have hassoc : wireImage w h ps =
      magicBytes ++ ((wireU32 w ++ wireU32 h) ++ (ps.map wirePixel).flatten) := by
    simp [wireImage]
  have hlen1 : ¬ min 8 (magicBytes ++
      ((wireU32 w ++ wireU32 h) ++ (ps.map wirePixel).flatten)).length < 8 := by
    simp [List.length_append, hmagic]
  have hlen2 : ¬ min 8 ((wireU32 w ++ wireU32 h) ++
      (ps.map wirePixel).flatten).length < 8 := by
    simp only [List.length_append, hdims]
    omega
  have hcm : checkMagic magicBytes = true := rfl
  rw [hassoc]
  simp only [load]
  rw [List.take_left' hmagic, List.drop_left' hmagic]
  rw [List.take_left' hdims, List.drop_left' hdims]
  simp only [hlen1, hlen2, hcm, if_false, if_true, ite_false, ite_true]
  rw [getDimensions_wire w h hw hh, loadPixels_wire ps hwf]

/-- Claim C1, counterexample: the validating constructor `Farbfeld::new`
does NOT fail when the pixel sequence is longer than `width * height` — with
width = height = 1 and two pixels (2 ≠ 1 * 1) construction succeeds, so
"succeeds if and only if ps.length == w * h" is false on the code. -/
theorem claimC1_cex :
    Farbfeld.new 1 1 [⟨0, 0, 0, 0⟩, ⟨0, 0, 0, 0⟩] =
      .ok { pixels := [⟨0, 0, 0, 0⟩, ⟨0, 0, 0, 0⟩], width := 1, height := 1 } ∧
    [(⟨0, 0, 0, 0⟩ : Pixel), ⟨0, 0, 0, 0⟩].length ≠ 1 * 1 :=
  ⟨rfl, by decide⟩

/-- Claim C1, amended: `Farbfeld::new w h ps` succeeds if and only if
`ps.length` is at least the product `w * h` computed in 32-bit (mod 2^32)
arithmetic; with fewer pixels it fails with the dimension-mismatch error
(`InvalidFarbfeldDimensions`); surplus pixels are accepted unchanged, so a
successfully constructed image guarantees only
`width * height % 2^32 ≤ pixels.length`. -/
theorem claimC1 (w h : Nat) (ps : List Pixel) :
    ((Farbfeld.new w h ps).isOk = true ↔ w * h % 4294967296 ≤ ps.length) ∧
    (ps.length < w * h % 4294967296 →
      Farbfeld.new w h ps = .error .invalidFarbfeldDimensions) ∧
    (w * h % 4294967296 ≤ ps.length →
      Farbfeld.new w h ps = .ok { pixels := ps, width := w, height := h }) := by
  unfold Farbfeld.new
  refine ⟨?_, ?_, ?_⟩ <;> split <;> simp_all [Except.isOk, Except.toBool] <;> omega

/-- Claim C1, witness: at width = height = 1 with one pixel the amended
theorem yields a successful construction. -/
theorem claimC1_wit :
    1 * 1 % 4294967296 ≤ [(⟨0, 0, 0, 0⟩ : Pixel)].length ∧
    Farbfeld.new 1 1 [⟨0, 0, 0, 0⟩] =
      .ok { pixels := [⟨0, 0, 0, 0⟩], width := 1, height := 1 } :=
  ⟨by decide, (claimC1 1 1 [⟨0, 0, 0, 0⟩]).2.2 (by decide)⟩

/-- A concrete 2x2 image for exercising the coordinate accessors: pixel k of
the row-major sequence has red channel k. -/
def c2Img : Farbfeld :=
  { pixels := [⟨0, 0, 0, 0⟩, ⟨1, 0, 0, 0⟩, ⟨2, 0, 0, 0⟩, ⟨3, 0, 0, 0⟩]
    width := 2
    height := 2 }

/-- The wire stream whose decoding produces `c2Img`. -/
def c2Stream : List Nat :=
  wireImage 2 2 [⟨0, 0, 0, 0⟩, ⟨1, 0, 0, 0⟩, ⟨2, 0, 0, 0⟩, ⟨3, 0, 0, 0⟩]

/-- Claim C2: the coordinate accessors are claimed to all return the pixel at
row-major index `y * width + x`, but on the successfully decoded 2x2 image
they disagree with that rule and with each other.  Reading `pos = [x, y]`:
at (x, y) = (1, 0) the claimed pixel is index 0 * 2 + 1 = 1 (red 1), yet
`get_pos` and the `Index` operator return index `width * x + y` = 2 (red 2)
and `get_pos_mut` returns index `width * x + x` = 3 (red 3).  Reading
`pos = [y, x]` instead: at the same coordinate (pos = (0, 1)) `get_pos`
returns red 1 but `get_pos_mut` returns index `width * y + y` = 0 (red 0),
so under either argument order the two accessors contradict the single
claimed index rule. -/
theorem claimC2_bug :
    load c2Stream = .ok c2Img ∧
    c2Img.pixels.get? (0 * c2Img.width + 1) = some ⟨1, 0, 0, 0⟩ ∧
    c2Img.getPos (1, 0) = some ⟨2, 0, 0, 0⟩ ∧
    c2Img.getPosMut (1, 0) = some ⟨3, 0, 0, 0⟩ ∧
    c2Img.indexPair (1, 0) = some ⟨2, 0, 0, 0⟩ ∧
    c2Img.getPos (0, 1) = some ⟨1, 0, 0, 0⟩ ∧
    c2Img.getPosMut (0, 1) = some ⟨0, 0, 0, 0⟩ :=
  ⟨rfl, rfl, rfl, rfl, rfl, rfl, rfl⟩

/-- A well-formed 2x1 wire image whose second pixel record begins with the
byte 0x20 (ASCII space): magic, width 2, height 1, record (1,2,3,4), record
(0x2005, 6, 7, 8). -/
def c3Stream : List Nat :=
  magicBytes ++ wireU32 2 ++ wireU32 1 ++
    [0x00, 0x01, 0x00, 0x02, 0x00, 0x03, 0x00, 0x04,
     0x20, 0x05, 0x00, 0x06, 0x00, 0x07, 0x00, 0x08]

/-- Claim C3: on the well-formed stream `c3Stream` the byte-reader decoder
`Farbfeld::load` yields exactly the encoded image, but the nom decoder
(`from_read` via `parse_farb`) fails with `NotEnoughDataError`: the `ws!`
wrapper of `parse_pixel` silently consumes the 0x20 byte that starts the
second record as whitespace, desynchronising the pixel stream.  Both
decoders agree on the spec's 1x1 scenario, whose record contains no
whitespace byte. -/
theorem claimC3_bug :
    load c3Stream =
      .ok { pixels := [⟨1, 2, 3, 4⟩, ⟨8197, 6, 7, 8⟩], width := 2, height := 1 } ∧
    fromRead c3Stream = .error .notEnoughData ∧
    load (wireImage 1 1 [⟨1, 2, 3, 4⟩]) =
      .ok { pixels := [⟨1, 2, 3, 4⟩], width := 1, height := 1 } ∧
    fromRead (wireImage 1 1 [⟨1, 2, 3, 4⟩]) =
      .ok { pixels := [⟨1, 2, 3, 4⟩], width := 1, height := 1 } :=
  ⟨rfl, rfl, rfl, rfl⟩

/-- Claim C9: the constructor's pixel-count comparison uses the product
`width * height` reduced modulo 2^32, so whenever the true product is 2^32
or more it accepts a pixel sequence strictly shorter than the true product,
provided the sequence covers the wrapped product. -/
theorem claimC9 (w h : Nat) (ps : List Pixel) (hbig : 4294967296 ≤ w * h)
    (hshort : ps.length < w * h) (hlen : w * h % 4294967296 ≤ ps.length) :
    (Farbfeld.new w h ps).isOk = true := by
  unfold Farbfeld.new
  split <;> simp_all [Except.isOk, Except.toBool] <;> omega

/-- Claim C9, witness: 65536 x 65536 (true product exactly 2^32, wrapped
product 0) accepts the empty pixel sequence. -/
theorem claimC9_wit :
    4294967296 ≤ 65536 * 65536 ∧ ([] : List Pixel).length < 65536 * 65536 ∧
    65536 * 65536 % 4294967296 ≤ ([] : List Pixel).length ∧
    (Farbfeld.new 65536 65536 []).isOk = true :=
  ⟨by norm_num, by norm_num, by norm_num,
    claimC9 65536 65536 [] (by norm_num) (by norm_num) (by norm_num)⟩

/-- A nonempty byte list shorter than a full 8-byte record decodes to the
pixel-truncation error carrying its length. -/
theorem loadPixels_short (src : List Nat) (h1 : 0 < src.length)
    (h2 : src.length < 8) :
    loadPixels src = .error (.truncatedPixel src.length) := by
  rcases src with _ | ⟨b0, _ | ⟨b1, _ | ⟨b2, _ | ⟨b3, _ | ⟨b4, _ | ⟨b5, _ | ⟨b6, _ | ⟨b7, rest⟩⟩⟩⟩⟩⟩⟩⟩
  · simp at h1
  · rfl
  · rfl
  · rfl
  · rfl
  · rfl
  · rfl
  · rfl
  · simp [List.length_cons] at h2
    omega

/-- A list that is neither empty nor 8 or more elements long has length 1-7. -/
theorem notEight_bounds (src : List Nat) (h0 : src = [] → False)
    (h8 : ∀ (b0 b1 b2 b3 b4 b5 b6 b7 : Nat) (rest : List Nat),
      src = b0 :: b1 :: b2 :: b3 :: b4 :: b5 :: b6 :: b7 :: rest → False) :
    0 < src.length ∧ src.length < 8 := by
  rcases src with _ | ⟨b0, _ | ⟨b1, _ | ⟨b2, _ | ⟨b3, _ | ⟨b4, _ | ⟨b5, _ | ⟨b6, _ | ⟨b7, rest⟩⟩⟩⟩⟩⟩⟩⟩
  · exact absurd rfl h0
  · exact ⟨by simp, by simp⟩
  · exact ⟨by simp, by simp⟩
  · exact ⟨by simp, by simp⟩
  · exact ⟨by simp, by simp⟩
  · exact ⟨by simp, by simp⟩
  · exact ⟨by simp, by simp⟩
  · exact ⟨by simp, by simp⟩
  · exact absurd rfl (h8 b0 b1 b2 b3 b4 b5 b6 b7 rest)

/-- Claim C4: in `load_pixels`, exhausting the stream exactly at a record
boundary (stream length a multiple of 8) is the only non-error termination;
a stream whose length leaves a remainder of 1-7 bytes at the last record
boundary fails with the pixel-truncation error carrying exactly that partial
byte count; and normal termination returns one pixel per full record. -/
theorem claimC4 (src : List Nat) :
    ((loadPixels src).isOk = true ↔ src.length % 8 = 0) ∧
    (src.length % 8 ≠ 0 →
      loadPixels src = .error (.truncatedPixel (src.length % 8))) ∧
    (src.length % 8 = 0 →
      ∃ ps : List Pixel, loadPixels src = .ok ps ∧ ps.length = src.length / 8) := by
  induction src using loadPixels.induct with
  | case1 =>
    exact ⟨by simp [loadPixels, Except.isOk, Except.toBool], by simp,
      fun _ => ⟨[], rfl, rfl⟩⟩
  | case2 b0 b1 b2 b3 b4 b5 b6 b7 rest e hres ih =>
    obtain ⟨ih1, ih2, ih3⟩ := ih
    have hmod : rest.length % 8 ≠ 0 := by
      intro hm
      obtain ⟨ps, hps, -⟩ := ih3 hm
      rw [hres] at hps
      cases hps
    have he : e = .truncatedPixel (rest.length % 8) := by
      have h2 := ih2 hmod
      rw [hres] at h2
      injection h2
    have hfull : loadPixels (b0 :: b1 :: b2 :: b3 :: b4 :: b5 :: b6 :: b7 :: rest)
        = .error (.truncatedPixel (rest.length % 8)) := by
      simp only [loadPixels, hres, he]
    have hlen : (b0 :: b1 :: b2 :: b3 :: b4 :: b5 :: b6 :: b7 :: rest).length
        = rest.length + 8 := by
      simp [List.length_cons]
    refine ⟨?_, ?_, ?_⟩
    · rw [hfull, hlen]
      simp [Except.isOk, Except.toBool, Nat.add_mod_right, hmod]
    · intro hm
      rw [hfull, hlen, Nat.add_mod_right]
    · intro hm
      rw [hlen, Nat.add_mod_right] at hm
      exact absurd hm hmod
  | case3 b0 b1 b2 b3 b4 b5 b6 b7 rest ps hres ih =>
    obtain ⟨ih1, ih2, ih3⟩ := ih
    have hmod : rest.length % 8 = 0 := by
      by_contra hm
      have h2 := ih2 hm
      rw [hres] at h2
      cases h2
    obtain ⟨ps2, hps2, hlen2⟩ := ih3 hmod
    rw [hres] at hps2
    injection hps2 with hps2
    subst hps2
    have hfull : loadPixels (b0 :: b1 :: b2 :: b3 :: b4 :: b5 :: b6 :: b7 :: rest)
        = .ok (pixelNew [b0, b1, b2, b3, b4, b5, b6, b7] :: ps) := by
      simp only [loadPixels, hres]
    have hlen : (b0 :: b1 :: b2 :: b3 :: b4 :: b5 :: b6 :: b7 :: rest).length
        = rest.length + 8 := by
      simp [List.length_cons]
    refine ⟨?_, ?_, ?_⟩
    · rw [hfull, hlen]
      simp [Except.isOk, Except.toBool, Nat.add_mod_right, hmod]
    · intro hm
      rw [hlen, Nat.add_mod_right] at hm
      exact absurd hmod hm
    · intro hm
      refine ⟨pixelNew [b0, b1, b2, b3, b4, b5, b6, b7] :: ps, hfull, ?_⟩
      rw [hlen]
      simp [List.length_cons, hlen2]
  | case4 src h0 h8 =>
    obtain ⟨hb1, hb2⟩ := notEight_bounds src h0 h8
    have heq := loadPixels_short src hb1 hb2
    have hmm : src.length % 8 = src.length := Nat.mod_eq_of_lt hb2
    refine ⟨?_, ?_, ?_⟩
    · rw [heq]
      simp [Except.isOk, Except.toBool]
      omega
    · intro hm
      rw [heq, hmm]
    · intro hm
      rw [hmm] at hm
      omega

/-- Claim C4, witness: a lone trailing byte gives the truncation error with
partial count 1, and one full record decodes to one pixel. -/
theorem claimC4_wit :
    (([9] : List Nat).length % 8 ≠ 0 ∧
      loadPixels [9] = .error (.truncatedPixel (([9] : List Nat).length % 8))) ∧
    (([1, 2, 3, 4, 5, 6, 7, 8] : List Nat).length % 8 = 0 ∧
      ∃ ps : List Pixel, loadPixels [1, 2, 3, 4, 5, 6, 7, 8] = .ok ps ∧
        ps.length = ([1, 2, 3, 4, 5, 6, 7, 8] : List Nat).length / 8) :=
  ⟨⟨by decide, (claimC4 [9]).2.1 (by decide)⟩,
   ⟨by decide, (claimC4 [1, 2, 3, 4, 5, 6, 7, 8]).2.2 (by decide)⟩⟩

/-- Claim C5: any stream of at least 8 bytes whose first 8 bytes are not the
magic fails, whatever the later bytes: `Farbfeld::load` with the dedicated
invalid-magic error, and the nom pipeline with its tag-mismatch `NomError`. -/
theorem claimC5 (src : List Nat) (h8 : 8 ≤ src.length)
    (hm : src.take 8 ≠ magicBytes) :
    load src = .error .invalidMagic ∧ fromRead src = .error .nomError := by
  constructor
  · have hlen : ¬ min 8 src.length < 8 := by omega
    have hcm : checkMagic (src.take 8) = false := by
      simp [checkMagic, hm]
    simp [load, hlen, hcm]
  · have hmin : min src.length 8 = 8 := by omega
    have hcond : ¬ (src.take (min src.length 8)
        = magicBytes.take (min src.length 8)) := by
      rw [hmin]
      exact hm
    simp [fromRead, parseFarb, tagFarbfeld, nbind, iToRes, hcond]

/-- Claim C5, witness: eight zero bytes are rejected as invalid magic by both
decoders. -/
theorem claimC5_wit :
    8 ≤ ([0, 0, 0, 0, 0, 0, 0, 0] : List Nat).length ∧
    ([0, 0, 0, 0, 0, 0, 0, 0] : List Nat).take 8 ≠ magicBytes ∧
    load [0, 0, 0, 0, 0, 0, 0, 0] = .error .invalidMagic ∧
    fromRead [0, 0, 0, 0, 0, 0, 0, 0] = .error .nomError :=
  ⟨by decide, by decide, (claimC5 _ (by decide) (by decide)).1,
    (claimC5 _ (by decide) (by decide)).2⟩

/-- Claim C6: any stream shorter than 8 bytes makes `Farbfeld::load` fail
with the header-read error carrying the byte count actually read — an error
distinct from the invalid-magic, dimension-read and pixel-truncation errors —
and makes the nom pipeline fail as well. -/
theorem claimC6 (src : List Nat) (hlt : src.length < 8) :
    load src = .error (.readMagicFailed src.length) ∧
    (∀ n m : Nat,
      FfErr.readMagicFailed n ≠ .invalidMagic ∧
      FfErr.readMagicFailed n ≠ .readDimenFailed m ∧
      FfErr.readMagicFailed n ≠ .truncatedPixel m) ∧
    (fromRead src).isOk = false := by
  refine ⟨?_, ?_, ?_⟩
  · have h2 : min 8 src.length = src.length := by omega
    simp [load, hlt, h2]
  · intro n m
    exact ⟨by simp, by simp, by simp⟩
  · by_cases hc : src.take (min src.length 8) = magicBytes.take (min src.length 8)
    · simp [fromRead, parseFarb, tagFarbfeld, nbind, hc, hlt, iToRes,
        Except.isOk, Except.toBool]
    · simp [fromRead, parseFarb, tagFarbfeld, nbind, hc, iToRes,
        Except.isOk, Except.toBool]

/-- Claim C6, witness: the single byte 0x66 is a truncated header. -/
theorem claimC6_wit :
    ([0x66] : List Nat).length < 8 ∧
    load [0x66] = .error (.readMagicFailed 1) ∧
    (fromRead [0x66]).isOk = false :=
  ⟨by decide, (claimC6 [0x66] (by decide)).1, (claimC6 [0x66] (by decide)).2.2⟩

/-- Claim C7: the dimension reader takes bytes [0,4) as the big-endian u32
width and bytes [4,8) as the big-endian u32 height, with no further range
check: decoding the wire encoding of any representable pair recovers exactly
that pair, and a width or height of 0 is accepted by the whole pipeline,
yielding an image with an empty pixel sequence. -/
theorem claimC7 (w hgt : Nat) (hw : w < 4294967296) (hh : hgt < 4294967296) :
    getDimensions (wireU32 w ++ wireU32 hgt) = (w, hgt) ∧
    load (wireImage 0 hgt []) = .ok { pixels := [], width := 0, height := hgt } ∧
    load (wireImage w 0 []) = .ok { pixels := [], width := w, height := 0 } := by
  refine ⟨getDimensions_wire w hgt hw hh, ?_, ?_⟩
  · exact load_wire 0 hgt [] (by norm_num) hh (by simp)
  · exact load_wire w 0 [] hw (by norm_num) (by simp)

/-- Claim C7, witness: dimensions 3 x 5, and a 0 x 5 image decoding to an
empty pixel sequence. -/
theorem claimC7_wit :
    (3 : Nat) < 4294967296 ∧ (5 : Nat) < 4294967296 ∧
    getDimensions (wireU32 3 ++ wireU32 5) = (3, 5) ∧
    load (wireImage 0 5 []) = .ok { pixels := [], width := 0, height := 5 } :=
  ⟨by norm_num, by norm_num, (claimC7 3 5 (by norm_num) (by norm_num)).1,
   (claimC7 3 5 (by norm_num) (by norm_num)).2.1⟩

/-- Claim C8: the bounds-checked accessors `get`, `get_mut` and `get_pos`
return `none` exactly when the (computed) linear index falls outside the
pixel sequence, and the stored pixel at that index otherwise — they never
fault. -/
theorem claimC8 (f : Farbfeld) (i : Nat) (pos : Nat × Nat) :
    (f.get i = none ↔ f.pixels.length ≤ i) ∧
    (f.getMut i = none ↔ f.pixels.length ≤ i) ∧
    (∀ hi : i < f.pixels.length, f.get i = some (f.pixels.get ⟨i, hi⟩)) ∧
    (f.getPos pos = none ↔
      f.pixels.length ≤ (f.width * pos.1 % 4294967296 + pos.2) % 4294967296) ∧
    (∀ hj : (f.width * pos.1 % 4294967296 + pos.2) % 4294967296
        < f.pixels.length,
      f.getPos pos = some (f.pixels.get
        ⟨(f.width * pos.1 % 4294967296 + pos.2) % 4294967296, hj⟩)) := by
  refine ⟨List.get?_eq_none, List.get?_eq_none,
    fun hi => List.get?_eq_get hi, List.get?_eq_none,
    fun hj => List.get?_eq_get hj⟩

/-- Claim C8, witness: on a 1x1 image, index 0 is in range and `get` returns
the stored pixel. -/
theorem claimC8_wit :
    (0 : Nat) < (Farbfeld.mk [⟨1, 2, 3, 4⟩] 1 1).pixels.length ∧
    (Farbfeld.mk [⟨1, 2, 3, 4⟩] 1 1).get 0 = some ⟨1, 2, 3, 4⟩ :=
  ⟨by decide, (claimC8 (Farbfeld.mk [⟨1, 2, 3, 4⟩] 1 1) 0 (0, 0)).2.2.1 (by decide)⟩

/-- Claim C10: a pixel's iterator yields exactly red, green, blue, alpha in
that order and then `none` forever (the cursor never re-enters the yielding
range), so `into_raw` flattens an image to exactly 4 channel values per
pixel, in record order. -/
theorem claimC10 :
    (∀ p : Pixel, p.intoIter.toList = [p.red, p.green, p.blue, p.alpha]) ∧
    (∀ it : PixelIter, 4 ≤ it.curr → it.next = none) ∧
    (∀ f : Farbfeld, f.intoRaw.length = 4 * f.pixels.length) := by
  have h1 : ∀ p : Pixel, p.intoIter.toList = [p.red, p.green, p.blue, p.alpha] := by
    intro p
    simp [Pixel.intoIter, PixelIter.toList, PixelIter.next]
  have h2 : ∀ it : PixelIter, 4 ≤ it.curr → it.next = none := by
    intro it hcur
    obtain ⟨p, c⟩ := it
    simp only [PixelIter.next]
    split
    · exact absurd hcur (by norm_num)
    · exact absurd hcur (by norm_num)
    · exact absurd hcur (by norm_num)
    · exact absurd hcur (by norm_num)
    · rfl
  have h3 : ∀ l : List Pixel,
      ((l.map fun p => p.intoIter.toList).flatten).length = 4 * l.length := by
    intro l
    induction l with
    | nil => simp
    | cons p rest ih =>
      rw [List.map_cons, List.flatten_cons, List.length_append, ih, h1]
      simp only [List.length_cons, List.length_nil]
      omega
  exact ⟨h1, h2, fun f => h3 f.pixels⟩

/-- Claim C10, witness: an exhausted iterator (cursor 4) yields `none`. -/
theorem claimC10_wit :
    4 ≤ (PixelIter.mk ⟨1, 2, 3, 4⟩ 4).curr ∧
    (PixelIter.mk ⟨1, 2, 3, 4⟩ 4).next = none :=
  ⟨by decide, claimC10.2.1 _ (by decide)⟩

end Rfarbfeld
